import Mathlib

/-!
Verification development for the sandboxed directory-cache and
recursive-aggregation engine of an XRootD-style MCP server.

The engine is shallowly embedded from the TypeScript source:
pure string processing for path sandboxing, an explicit
state-passing step function for the cache, and fueled structural
recursion for the recursive tree walks.  The external Remote
Directory Service (the xrdfs / xrdcp tool invocations) is modelled
as an oracle record of functions; every call the engine makes to
it is recorded in an event trace.
-/

set_option maxHeartbeats 1000000

namespace XRootD

/-! ## JavaScript string primitives

JS strings are sequences of characters; the engine only uses
startsWith, endsWith, split, join, replace of slash runs, includes
and pop.  They are embedded here at the character-list level so
that everything reduces by computation. -/

/-- Character-list prefix test; `strStartsWith s pre` embeds the
JavaScript expression `s.startsWith(pre)`. -/
def listStartsWith : List Char → List Char → Bool
  | [], _ => true
  | _ :: _, [] => false
  | a :: as, b :: bs => a == b && listStartsWith as bs

/-- JS `s.startsWith(pre)`. -/
def strStartsWith (s pre : String) : Bool :=
  listStartsWith pre.data s.data

/-- JS `s.endsWith(suf)`. -/
def strEndsWith (s suf : String) : Bool :=
  listStartsWith suf.data.reverse s.data.reverse

/-- Auxiliary for splitting a character list at a separator
character, with JavaScript `split` semantics (keeps empty pieces,
result is never the empty list). -/
def splitAux (sep : Char) : List Char → List Char → List (List Char)
  | [], acc => [acc.reverse]
  | c :: cs, acc =>
    if c == sep then acc.reverse :: splitAux sep cs []
    else splitAux sep cs (c :: acc)

/-- JS `s.split(sep)` for a single-character separator. -/
def splitOnChar (sep : Char) (s : String) : List String :=
  (splitAux sep s.data []).map String.mk

/-- JS `parts.join(sep)` for a slash separator. -/
def joinSlash : List String → String
  | [] => ""
  | [s] => s
  | s :: rest => s ++ "/" ++ joinSlash rest

/-- Auxiliary for collapsing runs of slashes; the flag records
whether the previous kept character was a slash. -/
def collapseAux : Bool → List Char → List Char
  | _, [] => []
  | prev, c :: cs =>
    if c == '/' then
      if prev then collapseAux true cs else c :: collapseAux true cs
    else c :: collapseAux false cs

/-- JS `s.replace(slash-run-regex, single-slash)`: every maximal run
of consecutive slashes becomes one slash. -/
def collapseSlashes (s : String) : String :=
  String.mk (collapseAux false s.data)

/-! ## Path sandbox (XRootDClient.resolvePath) -/

/-- Error taxonomy of the engine.  `accessDenied` corresponds to the
`Access denied` messages thrown by `resolvePath`; `remoteError` to a
failure of the external process; `wrapped` to the catch-and-rethrow
wrapping (`Failed to ... : inner`); `noFuel` is an artificial bound, introduced by the embedding, on recursion depth. -/
inductive XErr where
  | accessDenied (path base : String)
  | remoteError (msg : String)
  | wrapped (ctx : String) (inner : XErr)
  | noFuel
deriving DecidableEq

/-- The segment normalization performed by `resolvePath` on a
concatenated relative path: split on slash, drop empty and dot
segments, resolve `..` by popping (popping past the root is a
no-op), and rejoin with a leading slash. -/
def normalizeResolved (s : String) : String :=
  let parts := (splitOnChar '/' s).filter (fun p => p != "" && p != ".")
  let normalized := parts.foldl
    (fun acc part => if part == ".." then acc.dropLast else acc ++ [part]) []
  "/" ++ joinSlash normalized

/-- `XRootDClient.resolvePath` (src/unnamed/part_003 lines 77-107).
An absolute logical path must pass the `startsWith(baseDirectory)`
test and is returned unchanged; a relative one is concatenated to
the base, slash-collapsed, segment-normalized, and re-checked with
`startsWith(baseDirectory)`. -/
def resolvePath (base path : String) : Except XErr String :=
  if strStartsWith path "/" then
    if strStartsWith path base then Except.ok path
    else Except.error (XErr.accessDenied path base)
  else
    if strStartsWith (normalizeResolved (collapseSlashes (base ++ "/" ++ path))) base then
      Except.ok (normalizeResolved (collapseSlashes (base ++ "/" ++ path)))
    else Except.error (XErr.accessDenied path base)

/-- Constructor normalization of the base directory: strip one
trailing slash, falling back to the root when the result is empty
(src/unnamed/part_003 line 68). -/
def mkBaseDirectory (raw : String) : String :=
  let stripped := if strEndsWith raw "/" then String.mk raw.data.dropLast else raw
  if stripped == "" then "/" else stripped

/-! ## LRUCache (src/unnamed/part_000)

The bounded time-expiring cache class.  The backing JS `Map` is
embedded as an insertion-ordered association list: `Map.set` on an
existing key updates its record in place (keeping its position),
`Map.set` on a new key appends, `Map.delete` removes, and
`keys().next().value` is the head of the list. -/

structure LEntry (K V : Type) where
  key : K
  value : V
  timestamp : Nat
deriving DecidableEq

/-- JS `Map.set`: update in place when the key is present, append
otherwise. -/
def mapSet [BEq K] (l : List (LEntry K V)) (k : K) (v : V) (t : Nat) :
    List (LEntry K V) :=
  if l.any (fun e => e.key == k) then
    l.map (fun e => if e.key == k then ⟨k, v, t⟩ else e)
  else l ++ [⟨k, v, t⟩]

/-- JS `Map.delete`. -/
def mapDelete [BEq K] (l : List (LEntry K V)) (k : K) : List (LEntry K V) :=
  l.filter (fun e => !(e.key == k))

structure LRUCache (K V : Type) where
  entries : List (LEntry K V)
  maxSize : Nat
  ttl : Nat
deriving DecidableEq

/-- `LRUCache.set` (part_000 lines 16-24): when the map already
holds at least `maxSize` records, delete the record of the first
key of the map, then write the new record with the current time. -/
def LRUCache.set [BEq K] (c : LRUCache K V) (k : K) (v : V) (now : Nat) :
    LRUCache K V :=
  let es :=
    if c.maxSize ≤ c.entries.length then
      match c.entries.head? with
      | some e0 => mapDelete c.entries e0.key
      | none => c.entries
    else c.entries
  { c with entries := mapSet es k v now }

/-- `LRUCache.get` (part_000 lines 26-36): absent when no record;
when the age of the record strictly exceeds `ttl`, delete it and report
absent (lazy expiry); otherwise return the value. -/
def LRUCache.get [BEq K] (c : LRUCache K V) (k : K) (now : Nat) :
    Option V × LRUCache K V :=
  match c.entries.find? (fun e => e.key == k) with
  | none => (none, c)
  | some e =>
    if c.ttl < now - e.timestamp then
      (none, { c with entries := mapDelete c.entries k })
    else (some e.value, c)

/-! ## Engine data model (src/unnamed/part_003 interfaces)

Sizes are byte counts (uint64 in the data model of the spec) and
modification times are epoch milliseconds, both embedded as `Nat`. -/

structure DirectoryEntry where
  name : String
  isDirectory : Bool
  size : Option Nat := none
  modificationTime : Option Nat := none
deriving DecidableEq

structure FileInfo where
  path : String
  size : Nat
  modificationTime : Nat
  isDirectory : Bool
deriving DecidableEq

structure SearchResult where
  path : String
  size : Nat
  modificationTime : Nat
  isDirectory : Bool
deriving DecidableEq

structure Dataset where
  name : String
  path : String
  fileCount : Option Nat := none
  totalSize : Option Nat := none
deriving DecidableEq

/-- Raw output of the remote stat operation, before the engine
applies its parsing defaults (size 0, current time, not a
directory). -/
structure StatInfo where
  size : Option Nat := none
  modificationTime : Option Nat := none
  isDirectory : Option Bool := none
deriving DecidableEq

/-- The Remote Directory Service boundary: one external operation
per xrdfs/xrdcp invocation the engine makes.  `list` is a parsed
`xrdfs ls -l`, `findPaths` an `xrdfs find -name`, `lsPaths` a plain
`xrdfs ls`, `stat` an `xrdfs stat`, `readBytes` an `xrdcp` copy. -/
structure Remote where
  list : String → Except String (List DirectoryEntry)
  stat : String → Except String StatInfo
  findPaths : String → String → Except String (List String)
  lsPaths : String → Except String (List String)
  readBytes : String → Option Nat → Option Nat → Except String (List Nat)

/-! ## DirectoryCache

The class `DirectoryCache` lives in `src/cache.ts`, which is not
part of the provided sources (only its call sites in
src/unnamed/part_003 are). -/

/-- Modelled from the spec: the missing `src/cache.ts`
`DirectoryCache` per spec section 4.2 — a bounded time-expiring map
from resolved path to listing; `get` is absent on a missing record
and lazily deletes a record older than `ttl`; `set` evicts the
record with the oldest `cachedAt` when at capacity and then writes
the record with the current time. -/
structure DCache where
  entries : List (String × List DirectoryEntry × Nat)
  ttl : Nat
  capacity : Nat
deriving DecidableEq

/-- Modelled from the spec: lazy-expiry read of `DirectoryCache`. -/
def DCache.get (c : DCache) (k : String) (now : Nat) :
    Option (List DirectoryEntry) × DCache :=
  match c.entries.find? (fun e => e.1 == k) with
  | none => (none, c)
  | some e =>
    if c.ttl < now - e.2.2 then
      (none, { c with entries := c.entries.filter (fun e2 => !(e2.1 == k)) })
    else (some e.2.1, c)

/-- Modelled from the spec: the key of the record with the smallest
`cachedAt` in the provider-wide scan. -/
def DCache.oldestKey (es : List (String × List DirectoryEntry × Nat)) :
    Option String :=
  es.foldl
    (fun acc e =>
      match acc with
      | none => some (e.1, e.2.2)
      | some (bk, bt) => if e.2.2 < bt then some (e.1, e.2.2) else some (bk, bt))
    none
    |>.map Prod.fst

/-- Modelled from the spec: capacity-checked write of
`DirectoryCache`. -/
def DCache.set (c : DCache) (k : String) (v : List DirectoryEntry) (now : Nat) :
    DCache :=
  let es :=
    if c.capacity ≤ c.entries.length then
      match DCache.oldestKey c.entries with
      | some victim => c.entries.filter (fun e => !(e.1 == victim))
      | none => c.entries
    else c.entries
  { c with entries := es.filter (fun e => !(e.1 == k)) ++ [(k, v, now)] }

/-! ## The engine computation monad

An engine action threads the cache state and records an event trace:
one `listCall` per `listDirectory` invocation (with the `useCache`
argument it received), one cache event per cache read or write, and
one remote event per external operation. -/

inductive Ev where
  | listCall (path : String) (useCache : Bool)
  | cacheRead (path : String)
  | cacheWrite (path : String)
  | remoteList (path : String)
  | remoteStat (path : String)
  | remoteFind (path pat : String)
  | remoteLs (path : String)
  | remoteRead (path : String)
deriving DecidableEq

def M (α : Type) : Type :=
  DCache → DCache × List Ev × Except XErr α

def M.pure (a : α) : M α := fun c => (c, [], Except.ok a)

def M.bind (x : M α) (f : α → M β) : M β := fun c =>
  match x c with
  | (c1, t1, Except.ok a) =>
    match f a c1 with
    | (c2, t2, r) => (c2, t1 ++ t2, r)
  | (c1, t1, Except.error e) => (c1, t1, Except.error e)

def M.throw (e : XErr) : M α := fun c => (c, [], Except.error e)

def M.emit (ev : Ev) : M Unit := fun c => (c, [ev], Except.ok ())

/-- try/catch: the handler runs from the state the failing body
left behind, and the trace of the body is kept. -/
def M.tryCatch (x : M α) (h : XErr → M α) : M α := fun c =>
  match x c with
  | (c1, t1, Except.ok a) => (c1, t1, Except.ok a)
  | (c1, t1, Except.error e) =>
    match h e c1 with
    | (c2, t2, r) => (c2, t1 ++ t2, r)

def M.cacheGet (k : String) (now : Nat) : M (Option (List DirectoryEntry)) :=
  fun c =>
    match DCache.get c k now with
    | (r, c1) => (c1, [Ev.cacheRead k], Except.ok r)

def M.cacheSet (k : String) (v : List DirectoryEntry) (now : Nat) : M Unit :=
  fun c => (DCache.set c k v now, [Ev.cacheWrite k], Except.ok ())

/-- The fixed construction-time context of one `XRootDClient`:
the remote service, the (already constructor-normalized) base
directory, the frozen clock, and the `RegExp.test` function used by
the regex search branch (a JS regular expression is embedded as its
test function on candidate names). -/
structure Ctx where
  remote : Remote
  base : String
  now : Nat
  test : String → String → Bool

/-! ## DirectoryWalker (XRootDClient.listDirectory, part_003 lines 114-166) -/

def listDirectory (ctx : Ctx) (path : String) (useCache : Bool) :
    M (List DirectoryEntry) :=
  M.bind (M.emit (Ev.listCall path useCache)) (fun _ =>
    match resolvePath ctx.base path with
    | Except.error e => M.throw e
    | Except.ok resolved =>
      M.bind (if useCache then M.cacheGet resolved ctx.now else M.pure none)
        (fun hit =>
          match hit with
          | some entries => M.pure entries
          | none =>
            M.bind (M.emit (Ev.remoteList resolved)) (fun _ =>
              match ctx.remote.list resolved with
              | Except.error msg =>
                M.throw (XErr.wrapped ("Failed to list directory " ++ path)
                  (XErr.remoteError msg))
              | Except.ok entries =>
                M.bind
                  (if useCache then M.cacheSet resolved entries ctx.now
                   else M.pure ())
                  (fun _ => M.pure entries))))

/-! ## Stat and read passthrough (part_003 lines 176-217) -/

def getFileInfo (ctx : Ctx) (path : String) : M FileInfo :=
  match resolvePath ctx.base path with
  | Except.error e => M.throw e
  | Except.ok resolved =>
    M.bind (M.emit (Ev.remoteStat resolved)) (fun _ =>
      match ctx.remote.stat resolved with
      | Except.error msg =>
        M.throw (XErr.wrapped ("Failed to get file info for " ++ path)
          (XErr.remoteError msg))
      | Except.ok s =>
        M.pure
          { path := resolved
            size := s.size.getD 0
            modificationTime := s.modificationTime.getD ctx.now
            isDirectory := s.isDirectory.getD false })

def readFile (ctx : Ctx) (path : String) (first last : Option Nat) :
    M (List Nat) :=
  match resolvePath ctx.base path with
  | Except.error e => M.throw e
  | Except.ok resolved =>
    M.bind (M.emit (Ev.remoteRead resolved)) (fun _ =>
      match ctx.remote.readBytes resolved first last with
      | Except.error msg =>
        M.throw (XErr.wrapped ("Failed to read file " ++ path)
          (XErr.remoteError msg))
      | Except.ok bs => M.pure bs)

/-! ## getDirectorySize (part_003 lines 228-246)

The recursion of each tree walk is embedded with an explicit fuel
argument bounding the descent depth; the source recursion has no
depth limit and trusts the remote hierarchy to be a finite tree, so
any finite tree is covered by a large enough fuel. -/

def sizeEntries (recur : String → M Nat) (path : String) :
    List DirectoryEntry → Nat → M Nat
  | [], acc => M.pure acc
  | e :: rest, acc =>
    let full := collapseSlashes (path ++ "/" ++ e.name)
    if e.isDirectory then
      M.bind (recur full) (fun s => sizeEntries recur path rest (acc + s))
    else sizeEntries recur path rest (acc + e.size.getD 0)

def getDirectorySize (ctx : Ctx) : Nat → String → M Nat
  | 0, _ => M.throw XErr.noFuel
  | fuel + 1, path =>
    M.tryCatch
      (M.bind (listDirectory ctx path true) (fun entries =>
        sizeEntries (fun p => getDirectorySize ctx fuel p) path entries 0))
      (fun e =>
        M.throw (XErr.wrapped ("Failed to calculate directory size for " ++ path) e))

/-! ## searchFilesRecursive (part_003 lines 298-317) -/

def searchEntries (ctx : Ctx) (recur : String → M (List SearchResult))
    (path pat : String) (recursive : Bool) :
    List DirectoryEntry → M (List SearchResult)
  | [] => M.pure []
  | e :: rest =>
    let full := collapseSlashes (path ++ "/" ++ e.name)
    let hit : List SearchResult :=
      if ctx.test pat e.name then
        [⟨full, e.size.getD 0, e.modificationTime.getD ctx.now, e.isDirectory⟩]
      else []
    M.bind (if recursive && e.isDirectory then recur full else M.pure [])
      (fun sub =>
        M.bind (searchEntries ctx recur path pat recursive rest)
          (fun restR => M.pure (hit ++ sub ++ restR)))

def searchFilesRecursive (ctx : Ctx) :
    Nat → String → String → Bool → M (List SearchResult)
  | 0, _, _, _ => M.throw XErr.noFuel
  | fuel + 1, path, pat, recursive =>
    M.bind (listDirectory ctx path false) (fun entries =>
      searchEntries ctx (fun p => searchFilesRecursive ctx fuel p pat recursive)
        path pat recursive entries)

/-! ## Statistics collection (part_003 lines 327-379) -/

structure DirectoryStatistics where
  totalFiles : Nat := 0
  totalDirectories : Nat := 0
  totalSize : Nat := 0
  sizeByExtension : List (String × Nat × Nat) := []
  oldestFile : Option (String × Nat) := none
  newestFile : Option (String × Nat) := none
  largestFile : Option (String × Nat) := none
deriving DecidableEq

/-- The extension bucket of a filename: the suffix after the last
dot, exactly as the source computes it (no case folding), with the
sentinel bucket for dotless names. -/
def extOf (name : String) : String :=
  if name.data.contains '.' then (splitOnChar '.' name).getLastD ""
  else "no-extension"

/-- Update of the per-extension accumulation table (a JS object in
insertion order). -/
def bumpExtension (tbl : List (String × Nat × Nat)) (ext : String) (size : Nat) :
    List (String × Nat × Nat) :=
  if tbl.any (fun e => e.1 == ext) then
    tbl.map (fun e => if e.1 == ext then (e.1, e.2.1 + 1, e.2.2 + size) else e)
  else tbl ++ [(ext, 1, size)]

/-- The per-file statistics update of `collectStatistics`: counters,
extension table, and the oldest/newest/largest running pointers with
their strict comparisons (ties keep the first-seen entry). -/
def statsFile (path : String) (stats : DirectoryStatistics) (e : DirectoryEntry) :
    DirectoryStatistics :=
  let full := collapseSlashes (path ++ "/" ++ e.name)
  let size := e.size.getD 0
  let mtime := e.modificationTime.getD 0
  let s1 := { stats with
    totalFiles := stats.totalFiles + 1
    totalSize := stats.totalSize + size
    sizeByExtension := bumpExtension stats.sizeByExtension (extOf e.name) size }
  let s2 :=
    match s1.oldestFile with
    | none => { s1 with oldestFile := some (full, mtime) }
    | some b => if mtime < b.2 then { s1 with oldestFile := some (full, mtime) } else s1
  let s3 :=
    match s2.newestFile with
    | none => { s2 with newestFile := some (full, mtime) }
    | some b => if b.2 < mtime then { s2 with newestFile := some (full, mtime) } else s2
  match s3.largestFile with
  | none => { s3 with largestFile := some (full, size) }
  | some b => if b.2 < size then { s3 with largestFile := some (full, size) } else s3

def statsEntries (recur : String → DirectoryStatistics → M DirectoryStatistics)
    (path : String) (recursive : Bool) :
    List DirectoryEntry → DirectoryStatistics → M DirectoryStatistics
  | [], stats => M.pure stats
  | e :: rest, stats =>
    if e.isDirectory then
      let s1 := { stats with totalDirectories := stats.totalDirectories + 1 }
      M.bind
        (if recursive then recur (collapseSlashes (path ++ "/" ++ e.name)) s1
         else M.pure s1)
        (fun s2 => statsEntries recur path recursive rest s2)
    else statsEntries recur path recursive rest (statsFile path stats e)

def collectStatistics (ctx : Ctx) :
    Nat → String → Bool → DirectoryStatistics → M DirectoryStatistics
  | 0, _, _, _ => M.throw XErr.noFuel
  | fuel + 1, path, recursive, stats =>
    M.bind (listDirectory ctx path false) (fun entries =>
      statsEntries (fun p s => collectStatistics ctx fuel p recursive s)
        path recursive entries stats)

def getStatistics (ctx : Ctx) (fuel : Nat) (path : String) (recursive : Bool) :
    M DirectoryStatistics :=
  match resolvePath ctx.base path with
  | Except.error e => M.throw e
  | Except.ok resolved => collectStatistics ctx fuel resolved recursive {}

/-! ## findRecentFiles (part_003 lines 420-451) -/

def recentEntries (ctx : Ctx) (recur : String → M (List SearchResult))
    (path : String) (cutoff : Nat) (recursive : Bool) :
    List DirectoryEntry → M (List SearchResult)
  | [] => M.pure []
  | e :: rest =>
    let full := collapseSlashes (path ++ "/" ++ e.name)
    if e.isDirectory then
      M.bind (if recursive then recur full else M.pure [])
        (fun sub =>
          M.bind (recentEntries ctx recur path cutoff recursive rest)
            (fun restR => M.pure (sub ++ restR)))
    else
      let mtime := e.modificationTime.getD 0
      let hit : List SearchResult :=
        if cutoff ≤ mtime then [⟨full, e.size.getD 0, mtime, false⟩] else []
      M.bind (recentEntries ctx recur path cutoff recursive rest)
        (fun restR => M.pure (hit ++ restR))

def findRecentFilesRecursive (ctx : Ctx) :
    Nat → String → Nat → Bool → M (List SearchResult)
  | 0, _, _, _ => M.throw XErr.noFuel
  | fuel + 1, path, cutoff, recursive =>
    M.bind (listDirectory ctx path false) (fun entries =>
      recentEntries ctx (fun p => findRecentFilesRecursive ctx fuel p cutoff recursive)
        path cutoff recursive entries)

def findRecentFiles (ctx : Ctx) (fuel : Nat) (path : String) (hours : Nat)
    (recursive : Bool) : M (List SearchResult) :=
  match resolvePath ctx.base path with
  | Except.error e => M.throw e
  | Except.ok resolved =>
    findRecentFilesRecursive ctx fuel resolved (ctx.now - hours * 3600000) recursive

/-! ## Glob matching (part_003 globToRegex, lines 319-325)

`globToRegex` escapes dots, turns each star into an unbounded
wildcard and each question mark into a single-character wildcard,
and anchors the result; `globMatch` is the test function of that
anchored pattern. -/

def globMatchAux : List Char → List Char → Bool
  | [], [] => true
  | [], _ :: _ => false
  | p :: ps, [] => if p == '*' then globMatchAux ps [] else false
  | p :: ps, c :: cs =>
    if p == '*' then globMatchAux ps (c :: cs) || globMatchAux (p :: ps) cs
    else if p == '?' then globMatchAux ps cs
    else p == c && globMatchAux ps cs
  termination_by p s => p.length + s.length

def globMatch (pat : String) (s : String) : Bool :=
  globMatchAux pat.data s.data

/-! ## searchFiles (part_003 lines 249-296)

The recursive glob branch shells out to the remote find operation
and decorates each reported path through `getFileInfo`, skipping
blank lines and paths whose stat fails.  (Whitespace trimming of
the raw process output is abstracted away: the oracle reports the
nonblank content of each line.) -/

/-- JS `path.split(slash).pop() or empty`. -/
def basename (p : String) : String :=
  (splitOnChar '/' p).getLastD ""

def globLoop (ctx : Ctx) (pat : String) (recursive : Bool) :
    List String → M (List SearchResult)
  | [] => M.pure []
  | p :: rest =>
    if p == "" then globLoop ctx pat recursive rest
    else if !recursive && pat != "*" && !(globMatch pat (basename p)) then
      globLoop ctx pat recursive rest
    else
      M.bind
        (M.tryCatch
          (M.bind (getFileInfo ctx p) (fun info =>
            M.pure (some
              (⟨p, info.size, info.modificationTime, info.isDirectory⟩ :
                SearchResult))))
          (fun _ => M.pure none))
        (fun r =>
          M.bind (globLoop ctx pat recursive rest) (fun restR =>
            M.pure (match r with | some x => x :: restR | none => restR)))

def searchFiles (ctx : Ctx) (fuel : Nat) (pat basePath : String)
    (recursive useRegex : Bool) : M (List SearchResult) :=
  match resolvePath ctx.base basePath with
  | Except.error e => M.throw e
  | Except.ok resolved =>
    M.tryCatch
      (if !useRegex then
        M.bind
          (if recursive then
            M.bind (M.emit (Ev.remoteFind resolved pat)) (fun _ =>
              match ctx.remote.findPaths resolved pat with
              | Except.error msg => M.throw (XErr.remoteError msg)
              | Except.ok ps => M.pure ps)
          else
            M.bind (M.emit (Ev.remoteLs resolved)) (fun _ =>
              match ctx.remote.lsPaths resolved with
              | Except.error msg => M.throw (XErr.remoteError msg)
              | Except.ok ps => M.pure ps))
          (fun paths => globLoop ctx pat recursive paths)
      else searchFilesRecursive ctx fuel resolved pat recursive)
      (fun e => M.throw (XErr.wrapped "Failed to search files" e))

/-! ## listDirectoryFiltered (part_003 lines 382-417) -/

structure FileFilter where
  extension : Option String := none
  minSize : Option Nat := none
  maxSize : Option Nat := none
  modifiedAfter : Option Nat := none
  modifiedBefore : Option Nat := none
  namePattern : Option String := none

/-- The filter predicate applied to each entry: all supplied filters
must pass.  The JS truthiness checks on `extension`, `namePattern`
and the Date-valued bounds are mirrored: an empty-string filter is
skipped like an absent one, and a time bound is only compared when
the entry has a modification time. -/
def entryPassesFilter (f : FileFilter) (e : DirectoryEntry) : Bool :=
  (match f.extension with
   | some ext => if ext == "" then true else strEndsWith e.name ext
   | none => true) &&
  (match f.minSize with
   | some m => decide (m ≤ e.size.getD 0)
   | none => true) &&
  (match f.maxSize with
   | some m => decide (e.size.getD 0 ≤ m)
   | none => true) &&
  (match f.modifiedAfter, e.modificationTime with
   | some t, some mt => decide (t ≤ mt)
   | _, _ => true) &&
  (match f.modifiedBefore, e.modificationTime with
   | some t, some mt => decide (mt ≤ t)
   | _, _ => true) &&
  (match f.namePattern with
   | some pat => if pat == "" then true else globMatch pat e.name
   | none => true)

def listDirectoryFiltered (ctx : Ctx) (path : String) (f : FileFilter) :
    M (List DirectoryEntry) :=
  M.bind (listDirectory ctx path true) (fun entries =>
    M.pure (entries.filter (entryPassesFilter f)))

/-! ## listDatasets (part_003 lines 468-507) -/

/-- Innermost level of the campaign walk: one dataset per process
directory, named detector/processType/process. -/
def datasetsOfProcesses (detectorName processTypeName processTypePath : String)
    (processes : List DirectoryEntry) : List Dataset :=
  processes.map (fun p =>
    { name := detectorName ++ "/" ++ processTypeName ++ "/" ++ p.name
      path := processTypePath ++ "/" ++ p.name })

def datasetsLoopPT (ctx : Ctx) (detectorName detectorPath : String) :
    List DirectoryEntry → M (List Dataset)
  | [] => M.pure []
  | pt :: rest =>
    let processTypePath := detectorPath ++ "/" ++ pt.name
    M.bind (listDirectory ctx processTypePath true) (fun processes =>
      M.bind (datasetsLoopPT ctx detectorName detectorPath rest) (fun restR =>
        M.pure
          (datasetsOfProcesses detectorName pt.name processTypePath
            (processes.filter (fun e => e.isDirectory)) ++ restR)))

def datasetsLoopD (ctx : Ctx) (campaignPath : String) :
    List DirectoryEntry → M (List Dataset)
  | [] => M.pure []
  | d :: rest =>
    let detectorPath := campaignPath ++ "/" ++ d.name
    M.bind (listDirectory ctx detectorPath true) (fun processTypes =>
      M.bind
        (datasetsLoopPT ctx d.name detectorPath
          (processTypes.filter (fun e => e.isDirectory)))
        (fun ds1 =>
          M.bind (datasetsLoopD ctx campaignPath rest) (fun ds2 =>
            M.pure (ds1 ++ ds2))))

def listDatasets (ctx : Ctx) (campaign recoPath : String) : M (List Dataset) :=
  match resolvePath ctx.base (recoPath ++ "/" ++ campaign) with
  | Except.error e => M.throw e
  | Except.ok campaignPath =>
    M.tryCatch
      (M.bind (listDirectory ctx campaignPath true) (fun detectors =>
        datasetsLoopD ctx campaignPath
          (detectors.filter (fun e => e.isDirectory))))
      (fun _ =>
        M.bind (listDirectory ctx campaignPath true) (fun entries =>
          M.pure
            ((entries.filter (fun e => e.isDirectory)).map (fun e =>
              { name := e.name, path := campaignPath ++ "/" ++ e.name }))))

/-! ## Trace predicates -/

/-- Events allowed in a fully uncached walk: every `listDirectory`
invocation carries `useCache = false` and the cache is never read
or written. -/
def evUncached : Ev → Prop
  | Ev.listCall _ u => u = false
  | Ev.cacheRead _ => False
  | Ev.cacheWrite _ => False
  | _ => True

/-- Every `listDirectory` invocation carries `useCache = true`. -/
def evCachedCall : Ev → Prop
  | Ev.listCall _ u => u = true
  | _ => True

/-- Events that are not calls to the Remote Directory Service. -/
def evNotRemote : Ev → Prop
  | Ev.remoteList _ => False
  | Ev.remoteStat _ => False
  | Ev.remoteFind _ _ => False
  | Ev.remoteLs _ => False
  | Ev.remoteRead _ => False
  | _ => True

/-- `TraceOK P x`: every event the action `x` can emit, from any
cache state, satisfies `P`. -/
def TraceOK (P : Ev → Prop) (x : M α) : Prop :=
  ∀ c, ∀ ev ∈ (x c).2.1, P ev

/-- Tagged-failure test on an engine result. -/
def isErr : Except XErr α → Bool
  | Except.error _ => true
  | Except.ok _ => false

/-- The value the recursive glob branch of `searchFiles` computes
from the path list reported by the remote find operation: each
nonblank path is decorated through the stat operation (with the
parsing defaults of the engine) and kept — directory or not — while
paths that fail to resolve or stat are skipped. -/
def globDecorate (ctx : Ctx) : List String → List SearchResult
  | [] => []
  | p :: rest =>
    if p == "" then globDecorate ctx rest
    else
      match resolvePath ctx.base p with
      | Except.error _ => globDecorate ctx rest
      | Except.ok rp =>
        match ctx.remote.stat rp with
        | Except.error _ => globDecorate ctx rest
        | Except.ok s =>
          ⟨p, s.size.getD 0, s.modificationTime.getD ctx.now,
            s.isDirectory.getD false⟩ :: globDecorate ctx rest

/-! ## Concrete worlds for counterexamples and witnesses -/

/-- A fresh engine cache with the default 60-minute TTL (in
milliseconds) and capacity 1000. -/
def freshCache : DCache := ⟨[], 3600000, 1000⟩

/-- World with one subdirectory `/data/sub` under the base. -/
def exRemote1 : Remote where
  list := fun p =>
    if p == "/data" then Except.ok [{ name := "sub", isDirectory := true }]
    else if p == "/data/sub" then Except.ok []
    else Except.error "missing"
  stat := fun _ => Except.error "missing"
  findPaths := fun _ _ => Except.error "missing"
  lsPaths := fun _ => Except.error "missing"
  readBytes := fun _ _ _ => Except.error "missing"

def exCtx1 : Ctx := ⟨exRemote1, "/data", 1000, fun _ _ => false⟩

/-- World whose find operation reports a path that stats as a
directory whose name matches the glob. -/
def exRemote2 : Remote where
  list := fun _ => Except.error "missing"
  stat := fun p =>
    if p == "/data/sub.root" then Except.ok ⟨some 7, some 5, some true⟩
    else Except.error "missing"
  findPaths := fun p pat =>
    if p == "/data" && pat == "*.root" then Except.ok ["/data/sub.root"]
    else Except.error "missing"
  lsPaths := fun _ => Except.error "missing"
  readBytes := fun _ _ _ => Except.error "missing"

def exCtx2 : Ctx := ⟨exRemote2, "/data", 1000, fun _ _ => false⟩

/-- The search scenario of the spec: a subtree holding `/a/x.root`,
`/a/b/y.root`, `/a/b/z.txt`, whose find operation reports exactly
the two `.root` files. -/
def exRemote3 : Remote where
  list := fun p =>
    if p == "/data/a" then
      Except.ok [⟨"x.root", false, some 11, some 100⟩, ⟨"b", true, none, none⟩]
    else if p == "/data/a/b" then
      Except.ok [⟨"y.root", false, some 22, some 200⟩,
        ⟨"z.txt", false, some 33, some 300⟩]
    else Except.error "missing"
  stat := fun p =>
    if p == "/data/a/x.root" then Except.ok ⟨some 11, some 100, some false⟩
    else if p == "/data/a/b/y.root" then Except.ok ⟨some 22, some 200, some false⟩
    else Except.error "missing"
  findPaths := fun p pat =>
    if p == "/data/a" && pat == "*.root" then
      Except.ok ["/data/a/x.root", "/data/a/b/y.root"]
    else Except.error "missing"
  lsPaths := fun _ => Except.error "missing"
  readBytes := fun _ _ _ => Except.error "missing"

def exCtx3 : Ctx := ⟨exRemote3, "/data", 1000, fun _ _ => false⟩

/-- The statistics scenario of the spec: a flat tree with files
a.root of size 10, b.root of size 20, c.txt of size 5. -/
def exRemote4 : Remote where
  list := fun p =>
    if p == "/data" then
      Except.ok [⟨"a.root", false, some 10, some 100⟩,
        ⟨"b.root", false, some 20, some 200⟩,
        ⟨"c.txt", false, some 5, some 300⟩]
    else Except.error "missing"
  stat := fun _ => Except.error "missing"
  findPaths := fun _ _ => Except.error "missing"
  lsPaths := fun _ => Except.error "missing"
  readBytes := fun _ _ _ => Except.error "missing"

def exCtx4 : Ctx := ⟨exRemote4, "/data", 1000, fun _ _ => false⟩

/-- A flat tree with the single file `A.ROOT` (uppercase suffix). -/
def exRemote5 : Remote where
  list := fun p =>
    if p == "/data" then Except.ok [⟨"A.ROOT", false, some 10, some 100⟩]
    else Except.error "missing"
  stat := fun _ => Except.error "missing"
  findPaths := fun _ _ => Except.error "missing"
  lsPaths := fun _ => Except.error "missing"
  readBytes := fun _ _ _ => Except.error "missing"

def exCtx5 : Ctx := ⟨exRemote5, "/data", 1000, fun _ _ => false⟩

/-- A campaign whose own listing succeeds with one detector
directory, while every deeper listing fails. -/
def exRemote6 : Remote where
  list := fun p =>
    if p == "/data/RECO/c" then Except.ok [⟨"det", true, none, none⟩]
    else Except.error "boom"
  stat := fun _ => Except.error "missing"
  findPaths := fun _ _ => Except.error "missing"
  lsPaths := fun _ => Except.error "missing"
  readBytes := fun _ _ _ => Except.error "missing"

def exCtx6 : Ctx := ⟨exRemote6, "/data", 1000, fun _ _ => false⟩

/-! # Theorems -/

/-- C1: with base `/data`, `reports/q1` resolves to
`/data/reports/q1` as the spec says; but the absolute logical path
`/data/../etc` does NOT fail with AccessDenied: it passes the raw
`startsWith` test and is returned unchanged, and its own
normalization `/etc` escapes the base directory.  This evaluates
the code at the failing input of the claim. -/
theorem resolvePath_traversal_escape :
    resolvePath "/data" "reports/q1" = Except.ok "/data/reports/q1" ∧
    resolvePath "/data" "/data/../etc" = Except.ok "/data/../etc" ∧
    normalizeResolved "/data/../etc" = "/etc" ∧
    strStartsWith "/etc" "/data" = false := by
  refine ⟨rfl, rfl, rfl, rfl⟩

/-- C2: with base `/data`, the sibling path `/database` resolves
successfully and is returned unchanged, yet it is neither equal to
the base nor an extension of `base ++ slash`: the documented
resolved-path invariant fails on the code. -/
theorem resolvePath_sibling_escape :
    resolvePath "/data" "/database" = Except.ok "/database" ∧
    ("/database" = "/data" → False) ∧
    strStartsWith "/database" ("/data" ++ "/") = false := by
  refine ⟨rfl, fun h => by simp at h, rfl⟩

/-- Every record of `mapSet l k v t` whose key is `k` is exactly the
freshly written record. -/
theorem mem_mapSet_key [BEq K] [LawfulBEq K]
    (l : List (LEntry K V)) (k : K) (v : V) (t : Nat) :
    ∀ e ∈ mapSet l k v t, e.key = k → e = ⟨k, v, t⟩ := by
  intro e he hk
  unfold mapSet at he
  split at he
  · rcases List.mem_map.mp he with ⟨e0, he0, hmap⟩
    by_cases h0 : (e0.key == k) = true
    · rw [if_pos h0] at hmap; exact hmap.symm
    · rw [if_neg h0] at hmap
      subst hmap
      exact absurd (beq_iff_eq.mpr hk) h0
  · rename_i h
    rcases List.mem_append.mp he with h1 | h1
    · exfalso
      exact h (List.any_eq_true.mpr ⟨e, h1, beq_iff_eq.mpr hk⟩)
    · simpa using h1

/-- C4: a `set` of key `k` at time `T` followed by a `get` of `k`
at any time strictly later than `T + ttl` reports absent and
deletes the record; and in general `get` never returns a value
whose record is older than `ttl`. -/
theorem cache_get_ttl_expiry {K V : Type} [BEq K] [LawfulBEq K] :
    (∀ (c : LRUCache K V) (k : K) (v : V) (T now : Nat),
      T + c.ttl < now →
        ((c.set k v T).get k now).1 = none ∧
        ∀ e ∈ ((c.set k v T).get k now).2.entries, e.key ≠ k) ∧
    (∀ (c : LRUCache K V) (k : K) (now : Nat) (v : V),
      (c.get k now).1 = some v →
        ∃ e ∈ c.entries, e.key = k ∧ now - e.timestamp ≤ c.ttl) := by
  constructor
  · intro c k v T now hlt
    have hkeyed : ∀ e ∈ (c.set k v T).entries, e.key = k → e = ⟨k, v, T⟩ :=
      mem_mapSet_key _ k v T
    unfold LRUCache.get
    cases hfind : (c.set k v T).entries.find? (fun e => e.key == k) with
    | none =>
      refine ⟨?_, ?_⟩
      · simp only [hfind]
      · simp only [hfind]
        intro e he hk
        exact (List.find?_eq_none.mp hfind e he) (beq_iff_eq.mpr hk)
    | some e =>
      have hmem := List.mem_of_find?_eq_some hfind
      have hp := List.find?_some hfind
      have hkey : e.key = k := by simpa using hp
      have he : e = ⟨k, v, T⟩ := hkeyed e hmem hkey
      subst he
      have hexp : (c.set k v T).ttl < now - (⟨k, v, T⟩ : LEntry K V).timestamp := by
        show c.ttl < now - T
        omega
      refine ⟨?_, ?_⟩
      · simp only [hfind, hexp, if_pos]
      · simp only [hfind, hexp, if_pos]
        intro e2 he2 hk2
        unfold mapDelete at he2
        have hmf := List.mem_filter.mp he2
        have hb : (e2.key == k) = true := beq_iff_eq.mpr hk2
        simp [hb] at hmf
  · intro c k now v hget
    unfold LRUCache.get at hget
    split at hget
    · exact absurd hget (by simp)
    · rename_i e hfind
      split at hget
      · exact absurd hget (by simp)
      · rename_i hexp
        have hp := List.find?_some hfind
        have hkey : e.key = k := by simpa using hp
        exact ⟨e, List.mem_of_find?_eq_some hfind, hkey, by omega⟩

/-- Witness for the TTL-expiry theorem at a concrete cache. -/
theorem cache_get_ttl_expiry_witness :
    (0 + 5 < 6) ∧
    (((⟨[], 10, 5⟩ : LRUCache Nat Nat).set 1 2 0).get 1 6).1 = none :=
  ⟨by decide, ((cache_get_ttl_expiry).1 ⟨[], 10, 5⟩ 1 2 0 6 (by decide)).1⟩

/-- C5 counterexample: capacity-3 cache; keys 10, 20 inserted at
times 0 and 1, then key 10 overwritten at time 2 (below capacity,
so it keeps its map position), then key 30 inserted at time 3,
reaching capacity.  The next `set` (key 40 at time 4) evicts the
first map key 10 (cachedAt 2) while key 20 with the strictly
smaller cachedAt 1 survives, so the evicted record is not the one
with the smallest cachedAt. -/
theorem lru_eviction_not_oldest_cachedAt :
    (((((⟨[], 3, 1000⟩ : LRUCache Nat Nat).set 10 0 0).set 20 0 1).set
        10 7 2).set 30 0 3).entries =
      [⟨10, 7, 2⟩, ⟨20, 0, 1⟩, ⟨30, 0, 3⟩] ∧
    ((((((⟨[], 3, 1000⟩ : LRUCache Nat Nat).set 10 0 0).set 20 0 1).set
        10 7 2).set 30 0 3).set 40 0 4).entries =
      [⟨20, 0, 1⟩, ⟨30, 0, 3⟩, ⟨40, 0, 4⟩] := by
  constructor <;> rfl

/-- C5 amended: when the cache holds at least `maxSize` records,
`set` deletes exactly the first record of the map (the earliest
first-inserted key) before writing; under key uniqueness this
removes exactly one record. -/
theorem lru_set_evicts_first_inserted [BEq K] [LawfulBEq K]
    (c : LRUCache K V) (k : K) (v : V) (t : Nat)
    (e0 : LEntry K V) (rest : List (LEntry K V))
    (hsplit : c.entries = e0 :: rest)
    (hcap : c.maxSize ≤ c.entries.length)
    (hnd : ∀ e ∈ rest, e.key ≠ e0.key) :
    (c.set k v t).entries = mapSet rest k v t := by
  have hcap' : c.maxSize ≤ (e0 :: rest).length := hsplit ▸ hcap
  have hdel : mapDelete (e0 :: rest) e0.key = rest := by
    unfold mapDelete
    rw [List.filter_cons]
    simp only [beq_self_eq_true, Bool.not_true, Bool.false_eq_true, if_false]
    exact List.filter_eq_self.mpr (fun e he => by
      simpa using hnd e he)
  unfold LRUCache.set
  simp only [hsplit, hcap', if_pos, List.head?_cons, hdel]

/-- Witness for the first-inserted eviction theorem at a concrete
cache at capacity. -/
theorem lru_set_evicts_first_inserted_witness :
    ((⟨[⟨1, 5, 9⟩, ⟨2, 6, 8⟩], 2, 100⟩ : LRUCache Nat Nat).set 3 7 10).entries =
      mapSet [⟨2, 6, 8⟩] 3 7 10 :=
  lru_set_evicts_first_inserted ⟨[⟨1, 5, 9⟩, ⟨2, 6, 8⟩], 2, 100⟩ 3 7 10
    ⟨1, 5, 9⟩ [⟨2, 6, 8⟩] rfl (by decide) (by decide)

theorem TraceOK.pureAct (P : Ev → Prop) (a : α) : TraceOK P (M.pure a) := by
  intro c ev hmem
  simp [M.pure] at hmem

theorem TraceOK.throwAct (P : Ev → Prop) (e : XErr) :
    TraceOK P (M.throw (α := α) e) := by
  intro c ev hmem
  simp [M.throw] at hmem

theorem TraceOK.emitAct {P : Ev → Prop} (ev : Ev) (h : P ev) :
    TraceOK P (M.emit ev) := by
  intro c ev2 hmem
  simp [M.emit] at hmem
  subst hmem
  exact h

theorem TraceOK.bindAct {P : Ev → Prop} {x : M α} {f : α → M β}
    (hx : TraceOK P x) (hf : ∀ a, TraceOK P (f a)) :
    TraceOK P (M.bind x f) := by
  intro c ev hmem
  unfold M.bind at hmem
  rcases hx0 : x c with ⟨c1, t1, r⟩
  rw [hx0] at hmem
  cases r with
  | error e =>
    exact hx c ev (by rw [hx0]; exact hmem)
  | ok a =>
    rcases hf0 : f a c1 with ⟨c2, t2, r2⟩
    simp only [hf0] at hmem
    rcases List.mem_append.mp hmem with h | h
    · exact hx c ev (by rw [hx0]; exact h)
    · exact hf a c1 ev (by rw [hf0]; exact h)

theorem TraceOK.tryCatchAct {P : Ev → Prop} {x : M α} {h : XErr → M α}
    (hx : TraceOK P x) (hh : ∀ e, TraceOK P (h e)) :
    TraceOK P (M.tryCatch x h) := by
  intro c ev hmem
  unfold M.tryCatch at hmem
  rcases hx0 : x c with ⟨c1, t1, r⟩
  rw [hx0] at hmem
  cases r with
  | ok a =>
    exact hx c ev (by rw [hx0]; exact hmem)
  | error e =>
    rcases hh0 : h e c1 with ⟨c2, t2, r2⟩
    simp only [hh0] at hmem
    rcases List.mem_append.mp hmem with h1 | h1
    · exact hx c ev (by rw [hx0]; exact h1)
    · exact hh e c1 ev (by rw [hh0]; exact h1)

theorem TraceOK.iteAct {P : Ev → Prop} (b : Bool) {x y : M α}
    (hx : TraceOK P x) (hy : TraceOK P y) :
    TraceOK P (if b then x else y) := by
  cases b
  · simpa using hy
  · simpa using hx

theorem TraceOK.cacheGetAct {P : Ev → Prop} (k : String) (now : Nat)
    (h : P (Ev.cacheRead k)) : TraceOK P (M.cacheGet k now) := by
  intro c ev hmem
  unfold M.cacheGet at hmem
  rcases DCache.get c k now with ⟨r, c1⟩
  simp at hmem
  subst hmem
  exact h

theorem TraceOK.cacheSetAct {P : Ev → Prop} (k : String)
    (v : List DirectoryEntry) (now : Nat) (h : P (Ev.cacheWrite k)) :
    TraceOK P (M.cacheSet k v now) := by
  intro c ev hmem
  simp [M.cacheSet] at hmem
  subst hmem
  exact h

/-- An uncached `listDirectory` call only emits allowed events: its
own `listCall` with flag `false` and possibly one remote listing. -/
theorem listDirectory_uncached_trace (ctx : Ctx) (p : String) :
    TraceOK evUncached (listDirectory ctx p false) := by
  unfold listDirectory
  apply TraceOK.bindAct
  · exact TraceOK.emitAct _ rfl
  · intro _
    cases resolvePath ctx.base p with
    | error e => exact TraceOK.throwAct _ _
    | ok r =>
      apply TraceOK.bindAct
      · exact TraceOK.pureAct _ _
      · intro hit
        cases hit with
        | some entries => exact TraceOK.pureAct _ _
        | none =>
          apply TraceOK.bindAct
          · exact TraceOK.emitAct _ trivial
          · intro _
            cases ctx.remote.list r with
            | error msg => exact TraceOK.throwAct _ _
            | ok entries =>
              apply TraceOK.bindAct
              · exact TraceOK.pureAct _ _
              · intro _
                exact TraceOK.pureAct _ _

/-- Every event of any `listDirectory` call with `useCache = true`
satisfies the cached-call predicate. -/
theorem listDirectory_cached_trace (ctx : Ctx) (p : String) :
    TraceOK evCachedCall (listDirectory ctx p true) := by
  unfold listDirectory
  apply TraceOK.bindAct
  · exact TraceOK.emitAct _ rfl
  · intro _
    cases resolvePath ctx.base p with
    | error e => exact TraceOK.throwAct _ _
    | ok r =>
      apply TraceOK.bindAct
      · exact TraceOK.cacheGetAct _ _ trivial
      · intro hit
        cases hit with
        | some entries => exact TraceOK.pureAct _ _
        | none =>
          apply TraceOK.bindAct
          · exact TraceOK.emitAct _ trivial
          · intro _
            cases ctx.remote.list r with
            | error msg => exact TraceOK.throwAct _ _
            | ok entries =>
              apply TraceOK.bindAct
              · exact TraceOK.cacheSetAct _ _ _ trivial
              · intro _
                exact TraceOK.pureAct _ _

theorem sizeEntries_trace {recur : String → M Nat}
    (hrec : ∀ p, TraceOK evCachedCall (recur p)) (path : String) :
    ∀ (es : List DirectoryEntry) (acc : Nat),
      TraceOK evCachedCall (sizeEntries recur path es acc) := by
  intro es
  induction es with
  | nil => intro acc; exact TraceOK.pureAct _ _
  | cons e rest ih =>
    intro acc
    unfold sizeEntries
    cases he : e.isDirectory with
    | true =>
      simp only [he, if_pos]
      exact TraceOK.bindAct (hrec _) (fun s => ih _)
    | false =>
      simp only [he, Bool.false_eq_true, if_neg, not_false_iff]
      exact ih _

/-- Every listing `getDirectorySize` issues, at the top level and at
every sub-level of the walk, carries `useCache = true`. -/
theorem getDirectorySize_trace (ctx : Ctx) :
    ∀ (fuel : Nat) (p : String),
      TraceOK evCachedCall (getDirectorySize ctx fuel p) := by
  intro fuel
  induction fuel with
  | zero => intro p; exact TraceOK.throwAct _ _
  | succ n ih =>
    intro p
    unfold getDirectorySize
    apply TraceOK.tryCatchAct
    · exact TraceOK.bindAct (listDirectory_cached_trace ctx p)
        (fun entries => sizeEntries_trace (fun q => ih q) p entries 0)
    · intro e
      exact TraceOK.throwAct _ _

theorem statsEntries_trace
    {recur : String → DirectoryStatistics → M DirectoryStatistics}
    (hrec : ∀ p s, TraceOK evUncached (recur p s)) (path : String)
    (recursive : Bool) :
    ∀ (es : List DirectoryEntry) (stats : DirectoryStatistics),
      TraceOK evUncached (statsEntries recur path recursive es stats) := by
  intro es
  induction es with
  | nil => intro stats; exact TraceOK.pureAct _ _
  | cons e rest ih =>
    intro stats
    unfold statsEntries
    cases he : e.isDirectory with
    | true =>
      simp only [he, if_pos]
      exact TraceOK.bindAct
        (TraceOK.iteAct recursive (hrec _ _) (TraceOK.pureAct _ _))
        (fun s2 => ih _)
    | false =>
      simp only [he, Bool.false_eq_true, if_neg, not_false_iff]
      exact ih _

/-- Every listing of the statistics walk, top level included, is
uncached, and the walk never touches the cache. -/
theorem collectStatistics_trace (ctx : Ctx) :
    ∀ (fuel : Nat) (p : String) (recursive : Bool)
      (stats : DirectoryStatistics),
      TraceOK evUncached (collectStatistics ctx fuel p recursive stats) := by
  intro fuel
  induction fuel with
  | zero => intro p r s; exact TraceOK.throwAct _ _
  | succ n ih =>
    intro p r s
    unfold collectStatistics
    exact TraceOK.bindAct (listDirectory_uncached_trace ctx p)
      (fun entries => statsEntries_trace (fun q s2 => ih q r s2) p r entries s)

theorem searchEntries_trace (ctx : Ctx)
    {recur : String → M (List SearchResult)}
    (hrec : ∀ p, TraceOK evUncached (recur p)) (path pat : String)
    (recursive : Bool) :
    ∀ es : List DirectoryEntry,
      TraceOK evUncached (searchEntries ctx recur path pat recursive es) := by
  intro es
  induction es with
  | nil => exact TraceOK.pureAct _ _
  | cons e rest ih =>
    unfold searchEntries
    exact TraceOK.bindAct
      (TraceOK.iteAct _ (hrec _) (TraceOK.pureAct _ _))
      (fun sub => TraceOK.bindAct ih (fun restR => TraceOK.pureAct _ _))

/-- Every listing of the regex search walk is uncached and the walk
never touches the cache. -/
theorem searchFilesRecursive_trace (ctx : Ctx) :
    ∀ (fuel : Nat) (p pat : String) (recursive : Bool),
      TraceOK evUncached (searchFilesRecursive ctx fuel p pat recursive) := by
  intro fuel
  induction fuel with
  | zero => intro p pat r; exact TraceOK.throwAct _ _
  | succ n ih =>
    intro p pat r
    unfold searchFilesRecursive
    exact TraceOK.bindAct (listDirectory_uncached_trace ctx p)
      (fun entries =>
        searchEntries_trace ctx (fun q => ih q pat r) p pat r entries)

theorem recentEntries_trace (ctx : Ctx)
    {recur : String → M (List SearchResult)}
    (hrec : ∀ p, TraceOK evUncached (recur p)) (path : String)
    (cutoff : Nat) (recursive : Bool) :
    ∀ es : List DirectoryEntry,
      TraceOK evUncached (recentEntries ctx recur path cutoff recursive es) := by
  intro es
  induction es with
  | nil => exact TraceOK.pureAct _ _
  | cons e rest ih =>
    unfold recentEntries
    cases he : e.isDirectory with
    | true =>
      simp only [he, if_pos]
      exact TraceOK.bindAct
        (TraceOK.iteAct recursive (hrec _) (TraceOK.pureAct _ _))
        (fun sub => TraceOK.bindAct ih (fun restR => TraceOK.pureAct _ _))
    | false =>
      simp only [he, Bool.false_eq_true, if_neg, not_false_iff]
      exact TraceOK.bindAct ih (fun restR => TraceOK.pureAct _ _)

/-- Every listing of the recent-files walk is uncached and the walk
never touches the cache. -/
theorem findRecentFilesRecursive_trace (ctx : Ctx) :
    ∀ (fuel : Nat) (p : String) (cutoff : Nat) (recursive : Bool),
      TraceOK evUncached (findRecentFilesRecursive ctx fuel p cutoff recursive) := by
  intro fuel
  induction fuel with
  | zero => intro p cutoff r; exact TraceOK.throwAct _ _
  | succ n ih =>
    intro p cutoff r
    unfold findRecentFilesRecursive
    exact TraceOK.bindAct (listDirectory_uncached_trace ctx p)
      (fun entries =>
        recentEntries_trace ctx (fun q => ih q cutoff r) p cutoff r entries)


/-! ## Access denial is synchronous (C3 helpers) -/

theorem listDirectory_denied (ctx : Ctx) (p : String) (u : Bool) (c : DCache)
    (err : XErr) (hres : resolvePath ctx.base p = Except.error err) :
    listDirectory ctx p u c = (c, [Ev.listCall p u], Except.error err) := by
  simp [listDirectory, hres, M.bind, M.emit, M.throw]

theorem getFileInfo_denied (ctx : Ctx) (p : String) (c : DCache) (err : XErr)
    (hres : resolvePath ctx.base p = Except.error err) :
    getFileInfo ctx p c = (c, [], Except.error err) := by
  simp [getFileInfo, hres, M.throw]

theorem readFile_denied (ctx : Ctx) (p : String) (a b : Option Nat) (c : DCache)
    (err : XErr) (hres : resolvePath ctx.base p = Except.error err) :
    readFile ctx p a b c = (c, [], Except.error err) := by
  simp [readFile, hres, M.throw]

theorem searchFiles_denied (ctx : Ctx) (fuel : Nat) (pat p : String)
    (r ur : Bool) (c : DCache) (err : XErr)
    (hres : resolvePath ctx.base p = Except.error err) :
    searchFiles ctx fuel pat p r ur c = (c, [], Except.error err) := by
  simp [searchFiles, hres, M.throw]

theorem getStatistics_denied (ctx : Ctx) (fuel : Nat) (p : String) (r : Bool)
    (c : DCache) (err : XErr)
    (hres : resolvePath ctx.base p = Except.error err) :
    getStatistics ctx fuel p r c = (c, [], Except.error err) := by
  simp [getStatistics, hres, M.throw]

theorem findRecentFiles_denied (ctx : Ctx) (fuel : Nat) (p : String)
    (hours : Nat) (r : Bool) (c : DCache) (err : XErr)
    (hres : resolvePath ctx.base p = Except.error err) :
    findRecentFiles ctx fuel p hours r c = (c, [], Except.error err) := by
  simp [findRecentFiles, hres, M.throw]

theorem listDatasets_denied (ctx : Ctx) (campaign recoPath : String)
    (c : DCache) (err : XErr)
    (hres : resolvePath ctx.base (recoPath ++ "/" ++ campaign) = Except.error err) :
    listDatasets ctx campaign recoPath c = (c, [], Except.error err) := by
  simp [listDatasets, hres, M.throw]

/-- C3: whenever path resolution fails with AccessDenied, every
engine operation fails with a tagged error without issuing a single
call to the Remote Directory Service (its event trace holds no
remote event): the denial is decided synchronously by pure string
processing. -/
theorem accessDenied_never_touches_remote :
    (∀ (ctx : Ctx) (p : String) (u : Bool) (c : DCache) (err : XErr),
      resolvePath ctx.base p = Except.error err →
      isErr ((listDirectory ctx p u) c).2.2 = true ∧
      ∀ ev ∈ ((listDirectory ctx p u) c).2.1, evNotRemote ev) ∧
    (∀ (ctx : Ctx) (p : String) (c : DCache) (err : XErr),
      resolvePath ctx.base p = Except.error err →
      isErr ((getFileInfo ctx p) c).2.2 = true ∧
      ∀ ev ∈ ((getFileInfo ctx p) c).2.1, evNotRemote ev) ∧
    (∀ (ctx : Ctx) (p : String) (a b : Option Nat) (c : DCache) (err : XErr),
      resolvePath ctx.base p = Except.error err →
      isErr ((readFile ctx p a b) c).2.2 = true ∧
      ∀ ev ∈ ((readFile ctx p a b) c).2.1, evNotRemote ev) ∧
    (∀ (ctx : Ctx) (fuel : Nat) (pat p : String) (r ur : Bool) (c : DCache)
        (err : XErr),
      resolvePath ctx.base p = Except.error err →
      isErr ((searchFiles ctx fuel pat p r ur) c).2.2 = true ∧
      ∀ ev ∈ ((searchFiles ctx fuel pat p r ur) c).2.1, evNotRemote ev) ∧
    (∀ (ctx : Ctx) (fuel : Nat) (p : String) (r : Bool) (c : DCache) (err : XErr),
      resolvePath ctx.base p = Except.error err →
      isErr ((getStatistics ctx fuel p r) c).2.2 = true ∧
      ∀ ev ∈ ((getStatistics ctx fuel p r) c).2.1, evNotRemote ev) ∧
    (∀ (ctx : Ctx) (fuel hours : Nat) (p : String) (r : Bool) (c : DCache)
        (err : XErr),
      resolvePath ctx.base p = Except.error err →
      isErr ((findRecentFiles ctx fuel p hours r) c).2.2 = true ∧
      ∀ ev ∈ ((findRecentFiles ctx fuel p hours r) c).2.1, evNotRemote ev) ∧
    (∀ (ctx : Ctx) (fuel : Nat) (p : String) (c : DCache) (err : XErr),
      resolvePath ctx.base p = Except.error err →
      isErr ((getDirectorySize ctx fuel p) c).2.2 = true ∧
      ∀ ev ∈ ((getDirectorySize ctx fuel p) c).2.1, evNotRemote ev) ∧
    (∀ (ctx : Ctx) (p : String) (f : FileFilter) (c : DCache) (err : XErr),
      resolvePath ctx.base p = Except.error err →
      isErr ((listDirectoryFiltered ctx p f) c).2.2 = true ∧
      ∀ ev ∈ ((listDirectoryFiltered ctx p f) c).2.1, evNotRemote ev) ∧
    (∀ (ctx : Ctx) (campaign recoPath : String) (c : DCache) (err : XErr),
      resolvePath ctx.base (recoPath ++ "/" ++ campaign) = Except.error err →
      isErr ((listDatasets ctx campaign recoPath) c).2.2 = true ∧
      ∀ ev ∈ ((listDatasets ctx campaign recoPath) c).2.1, evNotRemote ev) := by
  refine ⟨?_, ?_, ?_, ?_, ?_, ?_, ?_, ?_, ?_⟩
  · intro ctx p u c err hres
    rw [listDirectory_denied ctx p u c err hres]
    refine ⟨rfl, ?_⟩
    intro ev hmem
    simp at hmem
    subst hmem
    trivial
  · intro ctx p c err hres
    rw [getFileInfo_denied ctx p c err hres]
    exact ⟨rfl, by intro ev hmem; simp at hmem⟩
  · intro ctx p a b c err hres
    rw [readFile_denied ctx p a b c err hres]
    exact ⟨rfl, by intro ev hmem; simp at hmem⟩
  · intro ctx fuel pat p r ur c err hres
    rw [searchFiles_denied ctx fuel pat p r ur c err hres]
    exact ⟨rfl, by intro ev hmem; simp at hmem⟩
  · intro ctx fuel p r c err hres
    rw [getStatistics_denied ctx fuel p r c err hres]
    exact ⟨rfl, by intro ev hmem; simp at hmem⟩
  · intro ctx fuel hours p r c err hres
    rw [findRecentFiles_denied ctx fuel p hours r c err hres]
    exact ⟨rfl, by intro ev hmem; simp at hmem⟩
  · intro ctx fuel p c err hres
    cases fuel with
    | zero =>
      exact ⟨rfl, by intro ev hmem; simp [getDirectorySize, M.throw] at hmem⟩
    | succ n =>
      have hbody :
          getDirectorySize ctx (n + 1) p c =
            (c, [Ev.listCall p true],
              Except.error (XErr.wrapped
                ("Failed to calculate directory size for " ++ p) err)) := by
        show M.tryCatch _ _ c = _
        unfold M.tryCatch M.bind
        rw [listDirectory_denied ctx p true c err hres]
        rfl
      rw [hbody]
      refine ⟨rfl, ?_⟩
      intro ev hmem
      simp at hmem
      subst hmem
      trivial
  · intro ctx p f c err hres
    have hbody :
        listDirectoryFiltered ctx p f c =
          (c, [Ev.listCall p true], Except.error err) := by
      unfold listDirectoryFiltered M.bind
      rw [listDirectory_denied ctx p true c err hres]
    rw [hbody]
    refine ⟨rfl, ?_⟩
    intro ev hmem
    simp at hmem
    subst hmem
    trivial
  · intro ctx campaign recoPath c err hres
    rw [listDatasets_denied ctx campaign recoPath c err hres]
    exact ⟨rfl, by intro ev hmem; simp at hmem⟩

/-- Witness: with base `/data` the logical path `/etc` is denied,
and `listDirectory` on it fails with no remote event. -/
theorem accessDenied_never_touches_remote_witness :
    isErr ((listDirectory exCtx1 "/etc" true) freshCache).2.2 = true ∧
    ∀ ev ∈ ((listDirectory exCtx1 "/etc" true) freshCache).2.1, evNotRemote ev :=
  accessDenied_never_touches_remote.1 exCtx1 "/etc" true freshCache
    (XErr.accessDenied "/etc" "/data") rfl

/-- C6 amended: the statistics, regex-search and recent-files walks
issue every directory listing — the caller-supplied top level
included — with useCache = false and never read or write the
listing cache; getDirectorySize instead issues every listing,
sub-levels included, with the default useCache = true. -/
theorem recursive_walks_cache_usage :
    (∀ (ctx : Ctx) (fuel : Nat) (p : String) (recursive : Bool)
        (stats : DirectoryStatistics),
      TraceOK evUncached (collectStatistics ctx fuel p recursive stats)) ∧
    (∀ (ctx : Ctx) (fuel : Nat) (p pat : String) (recursive : Bool),
      TraceOK evUncached (searchFilesRecursive ctx fuel p pat recursive)) ∧
    (∀ (ctx : Ctx) (fuel : Nat) (p : String) (cutoff : Nat) (recursive : Bool),
      TraceOK evUncached (findRecentFilesRecursive ctx fuel p cutoff recursive)) ∧
    (∀ (ctx : Ctx) (fuel : Nat) (p : String),
      TraceOK evCachedCall (getDirectorySize ctx fuel p)) :=
  ⟨fun ctx fuel p r s => collectStatistics_trace ctx fuel p r s,
   fun ctx fuel p pat r => searchFilesRecursive_trace ctx fuel p pat r,
   fun ctx fuel p cutoff r => findRecentFilesRecursive_trace ctx fuel p cutoff r,
   fun ctx fuel p => getDirectorySize_trace ctx fuel p⟩

/-- C6 counterexample: on a tree with the subdirectory `/data/sub`,
`getDirectorySize` issues the sub-level listing of `/data/sub` with
useCache = true, reading and then writing the listing cache for
that sub-level. -/
theorem getDirectorySize_sublevel_uses_cache :
    Ev.listCall "/data/sub" true ∈
      ((getDirectorySize exCtx1 2 "/data") freshCache).2.1 ∧
    Ev.cacheRead "/data/sub" ∈
      ((getDirectorySize exCtx1 2 "/data") freshCache).2.1 ∧
    Ev.cacheWrite "/data/sub" ∈
      ((getDirectorySize exCtx1 2 "/data") freshCache).2.1 := by
  refine ⟨?_, ?_, ?_⟩ <;> decide


/-- C7 counterexample: the recursive glob search trusts the remote
find operation and applies no directory filtering: when the remote
reports the path `/data/sub.root` and the stat says it is a
directory, `searchFiles` returns it with isDirectory = true, so a
directory whose name matches the pattern IS included. -/
theorem searchFiles_returns_directory_entry :
    ((searchFiles exCtx2 2 "*.root" "." true false) freshCache).2.2 =
      Except.ok [⟨"/data/sub.root", 7, 5, true⟩] ∧
    (⟨"/data/sub.root", 7, 5, true⟩ : SearchResult).isDirectory = true := by
  exact ⟨rfl, rfl⟩

/-- C8 amended: on the flat tree with files a.root of size 10,
b.root of size 20 and c.txt of size 5, getStatistics returns
totalFiles 3, totalSize 35, the extension table with buckets root
(2 files, 30 bytes) and txt (1 file, 5 bytes), and a largest-file
pointer whose path ends in b.root; the buckets are keyed by the
suffix after the last dot exactly as written (no case folding). -/
theorem getStatistics_flat_tree_scenario :
    ((getStatistics exCtx4 2 "/data" true) freshCache).2.2 =
      Except.ok
        { totalFiles := 3, totalDirectories := 0, totalSize := 35,
          sizeByExtension := [("root", 2, 30), ("txt", 1, 5)],
          oldestFile := some ("/data/a.root", 100),
          newestFile := some ("/data/c.txt", 300),
          largestFile := some ("/data/b.root", 20) } ∧
    strEndsWith "/data/b.root" "b.root" = true := by
  exact ⟨rfl, rfl⟩

/-- C8 counterexample: a single file named `A.ROOT` of size 10 is
accumulated under the bucket `ROOT`, not under the lowercase bucket
`root`: the extension key is not lowercased by the code. -/
theorem statistics_extension_not_lowercased :
    ((getStatistics exCtx5 2 "/data" true) freshCache).2.2 =
      Except.ok
        { totalFiles := 1, totalDirectories := 0, totalSize := 10,
          sizeByExtension := [("ROOT", 1, 10)],
          oldestFile := some ("/data/A.ROOT", 100),
          newestFile := some ("/data/A.ROOT", 100),
          largestFile := some ("/data/A.ROOT", 10) } ∧
    (match ((getStatistics exCtx5 2 "/data" true) freshCache).2.2 with
     | Except.ok s => s.sizeByExtension.any (fun e => e.1 == "root")
     | Except.error _ => true) = false := by
  exact ⟨rfl, rfl⟩

/-- C10: in listDirectoryFiltered, an entry with no modification
time is unaffected by the modifiedAfter and modifiedBefore filters;
an entry with no size counts as size 0, so any positive minSize
excludes it and the maxSize filter never does; and the operation
returns exactly the listing filtered by the per-entry predicate. -/
theorem listDirectoryFiltered_missing_fields :
    (∀ (f : FileFilter) (e : DirectoryEntry), e.modificationTime = none →
      entryPassesFilter f e =
        entryPassesFilter
          { f with modifiedAfter := none, modifiedBefore := none } e) ∧
    (∀ (f : FileFilter) (e : DirectoryEntry) (m : Nat), e.size = none →
      f.minSize = some m → 0 < m → entryPassesFilter f e = false) ∧
    (∀ (f : FileFilter) (e : DirectoryEntry), e.size = none →
      entryPassesFilter f e = entryPassesFilter { f with maxSize := none } e) ∧
    (∀ (ctx : Ctx) (p : String) (f : FileFilter) (c : DCache),
      (listDirectoryFiltered ctx p f c).2.2 =
        match (listDirectory ctx p true c).2.2 with
        | Except.ok es => Except.ok (es.filter (entryPassesFilter f))
        | Except.error err => Except.error err) := by
  refine ⟨?_, ?_, ?_, ?_⟩
  · intro f e hmt
    rcases f with ⟨fe, fmin, fmax, fma, fmb, fnp⟩
    unfold entryPassesFilter
    rw [hmt]
    cases fma <;> cases fmb <;> rfl
  · intro f e m hsz hmin hm
    rcases f with ⟨fe, fmin, fmax, fma, fmb, fnp⟩
    simp only at hmin
    subst hmin
    have hdec : (decide (m ≤ 0)) = false := by
      simp
      omega
    simp [entryPassesFilter, hsz, hdec]
    intro h1 hm0
    omega
  · intro f e hsz
    rcases f with ⟨fe, fmin, fmax, fma, fmb, fnp⟩
    cases fmax with
    | none => rfl
    | some m => simp [entryPassesFilter, hsz]
  · intro ctx p f c
    unfold listDirectoryFiltered M.bind
    rcases h : listDirectory ctx p true c with ⟨c1, t1, r⟩
    cases r with
    | ok es => simp [M.pure]
    | error err => simp

/-- Witness for the filter theorem: a sizeless entry is rejected by
minSize 5. -/
theorem listDirectoryFiltered_missing_fields_witness :
    entryPassesFilter { minSize := some 5 }
      { name := "x", isDirectory := false } = false :=
  listDirectoryFiltered_missing_fields.2.1 { minSize := some 5 }
    { name := "x", isDirectory := false } 5 rfl rfl (by decide)


/-! ## String and resolution lemmas (C7 / C9 helpers) -/

theorem listStartsWith_append (p l m : List Char)
    (h : listStartsWith p l = true) : listStartsWith p (l ++ m) = true := by
  induction p generalizing l with
  | nil => rfl
  | cons a as ih =>
    cases l with
    | nil => simp [listStartsWith] at h
    | cons b bs =>
      simp only [listStartsWith, List.cons_append] at h ⊢
      rw [Bool.and_eq_true] at h ⊢
      exact ⟨h.1, ih bs h.2⟩

theorem strStartsWith_append (s t pre : String)
    (h : strStartsWith s pre = true) : strStartsWith (s ++ t) pre = true := by
  unfold strStartsWith at h ⊢
  rw [String.data_append]
  exact listStartsWith_append _ _ _ h

theorem strStartsWith_slash_append (x : String) :
    strStartsWith ("/" ++ x) "/" = true := rfl

/-- A successful resolution always passes the raw prefix test
against the base directory (this is the only guarantee the code
enforces). -/
theorem resolvePath_ok_startsWithBase {base p r : String}
    (h : resolvePath base p = Except.ok r) : strStartsWith r base = true := by
  unfold resolvePath at h
  split at h
  · split at h
    · rename_i hcond
      cases h
      exact hcond
    · cases h
  · split at h
    · rename_i hcond
      cases h
      exact hcond
    · cases h

/-- A successful resolution always yields an absolute path. -/
theorem resolvePath_ok_abs {base p r : String}
    (h : resolvePath base p = Except.ok r) : strStartsWith r "/" = true := by
  unfold resolvePath at h
  split at h
  · rename_i habs
    split at h
    · cases h
      exact habs
    · cases h
  · split at h
    · cases h
      exact strStartsWith_slash_append _
    · cases h

/-- An absolute path inside the base resolves to itself. -/
theorem resolvePath_abs_id {base p : String}
    (h0 : strStartsWith p "/" = true) (h1 : strStartsWith p base = true) :
    resolvePath base p = Except.ok p := by
  simp [resolvePath, h0, h1]

theorem string_beq_extend_false (cp nm : String) :
    (cp == cp ++ "/" ++ nm) = false := by
  rw [beq_eq_false_iff_ne]
  intro he
  have hlen : cp.data.length = (cp ++ "/" ++ nm).data.length := by rw [← he]
  rw [String.data_append, String.data_append] at hlen
  simp only [List.length_append, List.length_cons, List.length_nil] at hlen
  omega

theorem DCache.set_empty (ttl cap : Nat) (k : String)
    (v : List DirectoryEntry) (now : Nat) :
    DCache.set ⟨[], ttl, cap⟩ k v now = ⟨[(k, v, now)], ttl, cap⟩ := by
  by_cases h : cap ≤ 0
  · have hc : cap = 0 := Nat.le_zero.mp h
    subst hc
    rfl
  · have hc : ¬ (cap ≤ ([] : List (String × List DirectoryEntry × Nat)).length) := by
      simpa using h
    unfold DCache.set
    rw [if_neg hc]
    rfl

/-- Run lemma: a cached listing on a fresh cache fetches from the
remote and stores the listing. -/
theorem listDirectory_fresh_fetch (ctx : Ctx) (p : String)
    (E : List DirectoryEntry) (ttl cap : Nat)
    (h0 : strStartsWith p "/" = true) (h1 : strStartsWith p ctx.base = true)
    (hlist : ctx.remote.list p = Except.ok E) :
    listDirectory ctx p true ⟨[], ttl, cap⟩ =
      (⟨[(p, E, ctx.now)], ttl, cap⟩,
       [Ev.listCall p true, Ev.cacheRead p, Ev.remoteList p, Ev.cacheWrite p],
       Except.ok E) := by
  have hres := resolvePath_abs_id h0 h1
  have hset := DCache.set_empty ttl cap p E ctx.now
  simp [listDirectory, hres, hlist, hset, M.bind, M.emit, M.cacheGet,
    M.cacheSet, M.pure, DCache.get]

/-- Run lemma: a cached listing whose key is live in the cache is a
pure cache hit. -/
theorem listDirectory_cache_hit (ctx : Ctx) (p : String)
    (E : List DirectoryEntry) (ttl cap : Nat)
    (h0 : strStartsWith p "/" = true) (h1 : strStartsWith p ctx.base = true) :
    listDirectory ctx p true ⟨[(p, E, ctx.now)], ttl, cap⟩ =
      (⟨[(p, E, ctx.now)], ttl, cap⟩,
       [Ev.listCall p true, Ev.cacheRead p], Except.ok E) := by
  have hres := resolvePath_abs_id h0 h1
  simp [listDirectory, hres, M.bind, M.emit, M.cacheGet, M.pure, DCache.get]

/-- Run lemma: a cached listing of a different key misses the
one-record cache and surfaces the remote failure, wrapped. -/
theorem listDirectory_miss_error (ctx : Ctx) (p q : String)
    (E : List DirectoryEntry) (ttl cap : Nat) (msg : String)
    (h0 : strStartsWith q "/" = true) (h1 : strStartsWith q ctx.base = true)
    (hne : (p == q) = false)
    (hfail : ctx.remote.list q = Except.error msg) :
    listDirectory ctx q true ⟨[(p, E, ctx.now)], ttl, cap⟩ =
      (⟨[(p, E, ctx.now)], ttl, cap⟩,
       [Ev.listCall q true, Ev.cacheRead q, Ev.remoteList q],
       Except.error (XErr.wrapped ("Failed to list directory " ++ q)
         (XErr.remoteError msg))) := by
  have hres := resolvePath_abs_id h0 h1
  simp [listDirectory, hres, hfail, hne, M.bind, M.emit, M.cacheGet,
    M.throw, M.pure, DCache.get]

/-- C9 amended: when the campaign directory itself lists
successfully but the first detector-level listing fails, the whole
walk falls back to the flat list of first-level subdirectories of
the campaign (served from the just-filled cache); the fallback does
not extend to a failure of the campaign listing itself, which
propagates as an error. -/
theorem listDatasets_deep_failure_falls_back
    (ctx : Ctx) (campaign recoPath cp : String) (E : List DirectoryEntry)
    (d : DirectoryEntry) (ds : List DirectoryEntry) (msg : String)
    (ttl cap : Nat)
    (hres : resolvePath ctx.base (recoPath ++ "/" ++ campaign) = Except.ok cp)
    (hlist : ctx.remote.list cp = Except.ok E)
    (hdirs : E.filter (fun e => e.isDirectory) = d :: ds)
    (hfail : ctx.remote.list (cp ++ "/" ++ d.name) = Except.error msg) :
    ((listDatasets ctx campaign recoPath) ⟨[], ttl, cap⟩).2.2 =
      Except.ok ((E.filter (fun e => e.isDirectory)).map (fun e =>
        { name := e.name, path := cp ++ "/" ++ e.name })) := by
  have h0 := resolvePath_ok_abs hres
  have h1 := resolvePath_ok_startsWithBase hres
  have h0d : strStartsWith (cp ++ "/" ++ d.name) "/" = true :=
    strStartsWith_append _ _ _ (strStartsWith_append _ _ _ h0)
  have h1d : strStartsWith (cp ++ "/" ++ d.name) ctx.base = true :=
    strStartsWith_append _ _ _ (strStartsWith_append _ _ _ h1)
  have hne := string_beq_extend_false cp d.name
  have hfetch := listDirectory_fresh_fetch ctx cp E ttl cap h0 h1 hlist
  have hmiss := listDirectory_miss_error ctx cp (cp ++ "/" ++ d.name) E ttl cap
    msg h0d h1d hne hfail
  have hhit := listDirectory_cache_hit ctx cp E ttl cap h0 h1
  simp [listDatasets, hres, M.tryCatch, M.bind, hfetch, hdirs, datasetsLoopD,
    hmiss, hhit, M.pure]

/-- C9 counterexample: when the campaign listing itself fails, the
fallback relisting fails the same way and listDatasets propagates
the wrapped error instead of returning a flat list. -/
theorem listDatasets_campaign_failure_propagates :
    ((listDatasets exCtx2 "camp" "RECO") freshCache).2.2 =
      Except.error (XErr.wrapped "Failed to list directory /data/RECO/camp"
        (XErr.remoteError "missing")) := by
  rfl

/-- Witness: a concrete campaign with one detector directory and a
failing detector listing falls back to the flat list. -/
theorem listDatasets_deep_failure_falls_back_witness :
    ((listDatasets exCtx6 "c" "RECO") freshCache).2.2 =
      Except.ok [{ name := "det", path := "/data/RECO/c/det" }] := by
  have h := listDatasets_deep_failure_falls_back exCtx6 "c" "RECO" "/data/RECO/c"
    [⟨"det", true, none, none⟩] ⟨"det", true, none, none⟩ [] "boom" 3600000 1000
    rfl rfl rfl rfl
  exact h

/-- Run lemma for the recursive glob branch: the path loop leaves
the cache untouched and returns exactly the stat-decoration of the
reported paths. -/
theorem globLoop_run (ctx : Ctx) (pat : String) :
    ∀ (paths : List String) (c : DCache),
      ∃ t, globLoop ctx pat true paths c =
        (c, t, Except.ok (globDecorate ctx paths)) := by
  intro paths
  induction paths with
  | nil => intro c; exact ⟨[], rfl⟩
  | cons p rest ih =>
    intro c
    obtain ⟨t, ht⟩ := ih c
    by_cases hp : (p == "") = true
    · refine ⟨t, ?_⟩
      simp only [globLoop, globDecorate, hp, if_true]
      exact ht
    · have hp' : (p == "") = false := by simpa using hp
      cases hr : resolvePath ctx.base p with
      | error e =>
        refine ⟨t, ?_⟩
        simp [globLoop, globDecorate, hp', hr, getFileInfo, M.bind,
          M.tryCatch, M.pure, M.throw, ht]
      | ok rp =>
        cases hs : ctx.remote.stat rp with
        | error msg =>
          refine ⟨Ev.remoteStat rp :: t, ?_⟩
          simp [globLoop, globDecorate, hp', hr, hs, getFileInfo, M.bind,
            M.tryCatch, M.pure, M.throw, M.emit, ht]
        | ok st =>
          refine ⟨Ev.remoteStat rp :: t, ?_⟩
          simp [globLoop, globDecorate, hp', hr, hs, getFileInfo, M.bind,
            M.tryCatch, M.pure, M.throw, M.emit, ht]

/-- C7 amended: searchFiles with a glob pattern and recursive=true
delegates subtree matching entirely to the remote find operation
and returns exactly the reported nonblank paths decorated through
stat (paths that fail to resolve or stat are skipped); no directory
filtering is applied by the engine. -/
theorem searchFiles_glob_recursive_run (ctx : Ctx) (fuel : Nat)
    (pat basePath rp : String) (paths : List String) (c : DCache)
    (hres : resolvePath ctx.base basePath = Except.ok rp)
    (hfind : ctx.remote.findPaths rp pat = Except.ok paths) :
    ((searchFiles ctx fuel pat basePath true false) c).2.2 =
      Except.ok (globDecorate ctx paths) := by
  obtain ⟨t, ht⟩ := globLoop_run ctx pat paths c
  simp [searchFiles, hres, hfind, M.tryCatch, M.bind, M.emit, M.pure,
    M.throw, ht]

/-- Witness: the scenario of the spec — over the tree with /a/x.root,
/a/b/y.root, /a/b/z.txt whose find reports exactly the two matching
files, the search returns exactly those two files. -/
theorem searchFiles_glob_recursive_run_witness :
    ((searchFiles exCtx3 2 "*.root" "a" true false) freshCache).2.2 =
      Except.ok [⟨"/data/a/x.root", 11, 100, false⟩,
        ⟨"/data/a/b/y.root", 22, 200, false⟩] := by
  have h := searchFiles_glob_recursive_run exCtx3 2 "*.root" "a" "/data/a"
    ["/data/a/x.root", "/data/a/b/y.root"] freshCache rfl rfl
  exact h

end XRootD
